import Mathlib

/-!
Verification of the youtube-dl-gui download core: a shallow embedding of
`DownloadObject.py` (line classifier `extract_data`, progress-state merge
`_update_data`, the `download` read loop, `stop`, `clear_dash`) and of
`OptionsParser.py` (`OptionsParser.parse` and its `_set_*_options` groups),
together with theorems settling the specification's claims about them.
-/

namespace YDL

/-! ## Tokenization

Python's `str.split(' ')` splits on every single space character and the
source then filters out empty strings; the composition groups maximal runs
of non-space characters.  `splitAux` implements exactly that, parametric in
the separator predicate so that Python's argumentless `str.split()` (used
for `cmd_args`, splitting on runs of whitespace) is the same function with
a wider predicate. -/

def splitAux (p : Char → Bool) : List Char → List Char → List String
  | [], acc => if acc.isEmpty then [] else [String.mk acc.reverse]
  | c :: cs, acc =>
      if p c then
        if acc.isEmpty then splitAux p cs []
        else String.mk acc.reverse :: splitAux p cs []
      else splitAux p cs (c :: acc)

/-- `[s for s in stdout.split(' ') if s != '']` from `extract_data`. -/
def tokenize (s : String) : List String :=
  splitAux (fun c => c = ' ') s.data []

/-- The whitespace set of Python's argumentless `str.split()`. -/
def pyWS (c : Char) : Bool :=
  c = ' ' || c = '\t' || c = '\n' || c = '\x0d' || c = '\x0b' || c = '\x0c'

/-- Python's `str.split()` with no argument: split on whitespace runs. -/
def pySplit (s : String) : List String :=
  splitAux pyWS s.data []

/-! ## The sparse progress event produced by the line classifier

`extract_data` returns a Python dict holding a subset of the eight
progress keys; a field equal to `none` models an absent key. -/

structure Event where
  playlist_index : Option String := none
  playlist_size : Option String := none
  filesize : Option String := none
  filename : Option String := none
  percent : Option String := none
  status : Option String := none
  speed : Option String := none
  eta : Option String := none
deriving DecidableEq, Repr

/-- True iff the event dict holds at least one key. -/
def eventNonempty (e : Event) : Bool :=
  e.playlist_index.isSome || e.playlist_size.isSome || e.filesize.isSome ||
  e.filename.isSome || e.percent.isSome || e.status.isSome ||
  e.speed.isSome || e.eta.isSome

/-! ## The line classifier `extract_data`

Lines 226-270 of `DownloadObject.py`, on the token list after popping the
header.  A result of `none` models a raised `IndexError`: Python's
`stdout[0]`, `stdout[1]`, `stdout[2]`, `stdout[4]`, `stdout[6]` raise when
the index is out of range (`stdout[-1]` is reached only when the list is
nonempty, but is modelled by `getLast?` all the same). -/

/-- "Get filename" (lines 240-242): a `Destination:` marker makes the rest
of the line, rejoined with single spaces, the filename. -/
def getFilename (rest : List String) (t0 : String) (e : Event) : Event :=
  if t0 = "Destination:" then
    { e with filename := some (String.intercalate " " (rest.drop 1)) }
  else e

/-- "Get progress info" (lines 244-253): a first token containing a percent
sign selects the fixed-position progress fields, with `100%` as a
completion special case setting only empty speed and eta. -/
def getProgress (rest : List String) (t0 : String) (e : Event) : Option Event :=
  if t0.data.contains '%' then
    if t0 = "100%" then some { e with speed := some "", eta := some "" }
    else
      match rest.get? 2, rest.get? 4, rest.get? 6 with
      | some fs, some sp, some et =>
          some { e with percent := some t0, filesize := some fs,
                        speed := some sp, eta := some et }
      | _, _, _ => none
  else some e

/-- "Get playlist info" (lines 255-258): a `Downloading video` marker pair
selects playlist index and size from fixed positions (the second token is
only inspected when the first matches, as Python's `and` short-circuits). -/
def getPlaylist (rest : List String) (t0 : String) (e : Event) : Option Event :=
  if t0 = "Downloading" then
    match rest.get? 1 with
    | none => none
    | some t1 =>
      if t1 = "video" then
        match rest.get? 2, rest.get? 4 with
        | some pidx, some psz =>
            some { e with playlist_index := some pidx, playlist_size := some psz }
        | _, _ => none
      else some e
  else some e

/-- "Get file already downloaded status" (lines 260-262): a line whose last
token is `downloaded` overrides the status. -/
def getAlready (rest : List String) (e : Event) : Option Event :=
  match rest.getLast? with
  | none => none
  | some lastTok =>
      some (if lastTok = "downloaded" then
          { e with status := some "Already Downloaded" }
        else e)

def extractTokens : List String → Option Event
  | [] => some {}
  | header :: rest =>
    if header = "[download]" then
      match rest.head? with
      | none => none
      | some t0 =>
          (getProgress rest t0 (getFilename rest t0 { status := some "Downloading" })).bind
            (fun e2 => (getPlaylist rest t0 e2).bind (fun e3 => getAlready rest e3))
    else if header = "[ffmpeg]" then some { status := some "Post Processing" }
    else some { status := some "Pre Processing" }

/-- `extract_data(stdout)`: tokenize the raw line, then classify. -/
def extract_data (stdout : String) : Option Event :=
  extractTokens (tokenize stdout)

/-! ## The process supervisor `DownloadObject`

`self._return_code`, `self._data` and `self._files_list` are the pieces of
instance state the claims are about. -/

/-- `DownloadObject.OK`. -/
def OK : Nat := 0
/-- `DownloadObject.ERROR`. -/
def ERROR : Nat := 1
/-- `DownloadObject.STOPPED`. -/
def STOPPED : Nat := 2
/-- `DownloadObject.ALREADY`. -/
def ALREADY : Nat := 3

structure DLState where
  return_code : Nat
  data : Event
  files_list : List String
deriving DecidableEq, Repr

/-- The state set up by `DownloadObject.__init__`. -/
def initState : DLState :=
  { return_code := 0, data := {}, files_list := [] }

def basenameAux : List Char → List Char → List Char
  | [], acc => acc.reverse
  | c :: cs, acc => if c = '/' then basenameAux cs [] else basenameAux cs (c :: acc)

/-- `os.path.basename` on a POSIX path: the part after the last slash. -/
def basename (p : String) : String :=
  String.mk (basenameAux p.data [])

/-- `DownloadObject._update_data` (lines 123-148): for each key present in
the event, append the full filename to `self._files_list` and keep only the
basename, turn an `Already Downloaded` status into the `ALREADY` return
code and trash the key, and store every (possibly rewritten) value into
`self._data`.  The boolean is the `updated` flag: true iff the event dict
held at least one key. -/
def update_data (st : DLState) (ev : Event) : DLState × Bool :=
  let files := match ev.filename with
    | some f => st.files_list ++ [f]
    | none => st.files_list
  let rc := if ev.status = some "Already Downloaded" then ALREADY else st.return_code
  let d : Event :=
    { playlist_index := match ev.playlist_index with
        | none => st.data.playlist_index
        | some v => some v
      playlist_size := match ev.playlist_size with
        | none => st.data.playlist_size
        | some v => some v
      filesize := match ev.filesize with
        | none => st.data.filesize
        | some v => some v
      filename := match ev.filename with
        | none => st.data.filename
        | some f => some (basename f)
      percent := match ev.percent with
        | none => st.data.percent
        | some v => some v
      status := match ev.status with
        | none => st.data.status
        | some v => if v = "Already Downloaded" then none else some v
      speed := match ev.speed with
        | none => st.data.speed
        | some v => some v
      eta := match ev.eta with
        | none => st.data.eta
        | some v => some v }
  ({ return_code := rc, data := d, files_list := files }, eventNonempty ev)

/-- One iteration of the `download` read loop, or an interleaved `stop()`
call.  `out line` is an iteration whose stdout read produced `line` (then
`_read` does not touch stderr); `err msg` is an iteration whose stdout read
produced the empty string, so one stderr line `msg` was read; `stop` is a
`stop()` call arriving while the process is alive. -/
inductive RunEvent where
  | out (line : String)
  | err (msg : String)
  | stop
deriving DecidableEq, Repr

/-- Effect of one `RunEvent` on the supervisor state.  An `out` iteration
classifies the line (propagating a raised `IndexError` as `none`) and
merges the event; an `err` iteration merges the empty event and, when the
stderr text is nonempty, sets the `ERROR` return code; a `stop` call kills
the process and sets the `STOPPED` return code. -/
def stepEvent (st : DLState) : RunEvent → Option DLState
  | RunEvent.out line => (extract_data line).map (fun ev => (update_data st ev).1)
  | RunEvent.err msg =>
      let st1 := (update_data st {}).1
      some (if msg ≠ "" then { st1 with return_code := ERROR } else st1)
  | RunEvent.stop => some { st with return_code := STOPPED }

def runEvents : DLState → List RunEvent → Option DLState
  | st, [] => some st
  | st, e :: es => (stepEvent st e).bind (fun st1 => runEvents st1 es)

/-- The state at the top of `DownloadObject.download` (lines 88-96): the
return code is reset to `OK`; `self._data` and `self._files_list` are the
instance fields left over from any previous invocation. -/
def download_start (st : DLState) : DLState :=
  { st with return_code := OK }

/-- `DownloadObject.download`, as the fold of the read loop over a trace of
loop iterations and interleaved `stop()` calls; the final state's
`return_code` is the value the call returns. -/
def download (st : DLState) (evs : List RunEvent) : Option DLState :=
  runEvents (download_start st) evs

/-! ## The filesystem boundary and `clear_dash`

The operating system is modelled by the set of existing paths plus the set
of paths whose removal fails with an `OSError` (e.g. permission denied);
`os.remove` on a missing path raises `FileNotFoundError`. -/

structure FS where
  existing : List String
  locked : List String
deriving DecidableEq, Repr

/-- `os.path.exists`. -/
def path_exists (fs : FS) (p : String) : Bool :=
  decide (p ∈ fs.existing)

/-- `os.remove`: `none` models a raised error -- `OSError` for a locked
path, `FileNotFoundError` for a missing one. -/
def os_remove (fs : FS) (p : String) : Option FS :=
  if p ∈ fs.locked then none
  else if p ∈ fs.existing then
    some { fs with existing := fs.existing.erase p }
  else none

/-- `DownloadObject.clear_dash` (lines 117-121): for every recorded file
that exists, remove it; an `OSError` raised by `os.remove` propagates and
aborts the loop (`none`). -/
def clear_dash : List String → FS → Option FS
  | [], fs => some fs
  | f :: rest, fs =>
      if path_exists fs f then (os_remove fs f).bind (clear_dash rest)
      else clear_dash rest fs

/-! ## The argument builder `OptionsParser`

The configuration snapshot `opt_manager.options` is a flat mapping of
typed values; `fix_path` and `is_dash` live in the (absent) `utils` module
and are taken as parameters, since only the value of single arguments --
never the presence or order of any flag -- depends on them.  The module's
lookup tables become association lists; a failed lookup (`KeyError`) makes
the whole `parse` call raise, modelled by `none`. -/

structure Options where
  save_path : String
  output_format : String
  output_template : String
  restrict_filenames : Bool
  username : String
  password : String
  video_password : String
  retries : Int
  proxy : String
  user_agent : String
  referer : String
  video_format : String
  dash_audio_format : String
  playlist_start : Int
  playlist_end : Int
  max_downloads : Int
  ignore_errors : Bool
  write_description : Bool
  write_info : Bool
  write_thumbnail : Bool
  min_filesize : String
  max_filesize : String
  write_all_subs : Bool
  write_auto_subs : Bool
  write_subs : Bool
  embed_subs : Bool
  subs_lang : String
  to_audio : Bool
  audio_format : String
  audio_quality : String
  keep_video : Bool
  cmd_args : String
deriving DecidableEq, Repr

def SUBS_LANG : List (String × String) :=
  [("English", "en"), ("Greek", "gr"), ("Portuguese", "pt"), ("French", "fr"),
   ("Italian", "it"), ("Russian", "ru"), ("Spanish", "es"), ("German", "de")]

def VIDEO_FORMATS : List (String × String) :=
  [("default", "0"), ("mp4 [1280x720]", "22"), ("mp4 [640x360]", "18"),
   ("webm [640x360]", "43"), ("flv [400x240]", "5"), ("3gp [320x240]", "36"),
   ("mp4 1080p(DASH)", "137"), ("mp4 720p(DASH)", "136"),
   ("mp4 480p(DASH)", "135"), ("mp4 360p(DASH)", "134")]

def DASH_AUDIO_FORMATS : List (String × String) :=
  [("none", "none"), ("DASH m4a audio 128k", "140"), ("DASH webm audio 48k", "171")]

def AUDIO_QUALITY : List (String × String) :=
  [("high", "0"), ("mid", "5"), ("low", "9")]

/-- Python dict subscript: `some` the mapped value, `none` a `KeyError`. -/
def dictGet (d : List (String × String)) (k : String) : Option String :=
  (d.find? (fun kv => kv.1 = k)).map Prod.snd

/-! Each `_set_*_options` method appends to the shared `self.options_list`;
it is embedded as a function from the list so far to the extended list
(`Option`-valued when a dict lookup can raise). -/

/-- `_set_progress_options`. -/
def set_progress_options (l : List String) : List String :=
  l ++ ["--newline"]

/-- `_set_output_options` (parametric in `utils.fix_path`). -/
def set_output_options (fp : String → String) (o : Options) (l : List String) : List String :=
  let save_path := fp o.save_path
  let l := l ++ ["-o"]
  let l :=
    if o.output_format = "id" then l ++ [save_path ++ "%(id)s.%(ext)s"]
    else if o.output_format = "title" then l ++ [save_path ++ "%(title)s.%(ext)s"]
    else if o.output_format = "custom" then l ++ [save_path ++ o.output_template]
    else l
  if o.restrict_filenames then l ++ ["--restrict-filenames"] else l

/-- `_set_auth_options`. -/
def set_auth_options (o : Options) (l : List String) : List String :=
  let l := if o.username ≠ "" then l ++ ["-u", o.username] else l
  let l := if o.password ≠ "" then l ++ ["-p", o.password] else l
  if o.video_password ≠ "" then l ++ ["--video-password", o.video_password] else l

/-- `_set_connection_options`. -/
def set_connection_options (o : Options) (l : List String) : List String :=
  let l := if o.retries ≠ 10 then l ++ ["-R", toString o.retries] else l
  let l := if o.proxy ≠ "" then l ++ ["--proxy", o.proxy] else l
  let l := if o.user_agent ≠ "" then l ++ ["--user-agent", o.user_agent] else l
  if o.referer ≠ "" then l ++ ["--referer", o.referer] else l

/-- `_set_video_options` (parametric in `utils.is_dash`). -/
def set_video_options (isd : String → Bool) (o : Options) (l : List String) :
    Option (List String) :=
  if o.video_format ≠ "default" then
    match dictGet VIDEO_FORMATS o.video_format with
    | none => none
    | some vcode =>
      if isd o.video_format then
        if isd o.dash_audio_format then
          match dictGet DASH_AUDIO_FORMATS o.dash_audio_format with
          | none => none
          | some dcode => some (l ++ ["-f", vcode ++ "+" ++ dcode])
        else some (l ++ ["-f", vcode])
      else some (l ++ ["-f", vcode])
  else some l

/-- `_set_playlist_options`. -/
def set_playlist_options (o : Options) (l : List String) : List String :=
  let l := if o.playlist_start ≠ 1 then l ++ ["--playlist-start", toString o.playlist_start] else l
  let l := if o.playlist_end ≠ 0 then l ++ ["--playlist-end", toString o.playlist_end] else l
  if o.max_downloads ≠ 0 then l ++ ["--max-downloads", toString o.max_downloads] else l

/-- `_set_filesystem_options`. -/
def set_filesystem_options (o : Options) (l : List String) : List String :=
  let l := if o.ignore_errors then l ++ ["-i"] else l
  let l := if o.write_description then l ++ ["--write-description"] else l
  let l := if o.write_info then l ++ ["--write-info-json"] else l
  let l := if o.write_thumbnail then l ++ ["--write-thumbnail"] else l
  let l := if o.min_filesize ≠ "0" then l ++ ["--min-filesize", o.min_filesize] else l
  if o.max_filesize ≠ "0" then l ++ ["--max-filesize", o.max_filesize] else l

/-- `_set_subtitles_options`. -/
def set_subtitles_options (o : Options) (l : List String) : Option (List String) :=
  let l := if o.write_all_subs then l ++ ["--all-subs"] else l
  let l := if o.write_auto_subs then l ++ ["--write-auto-sub"] else l
  let step : Option (List String) :=
    if o.write_subs then
      match dictGet SUBS_LANG o.subs_lang with
      | none => none
      | some code => some (l ++ ["--write-sub", "--sub-lang", code])
    else some l
  step.map (fun l => if o.embed_subs then l ++ ["--embed-subs"] else l)

/-- `_set_audio_options`. -/
def set_audio_options (o : Options) (l : List String) : Option (List String) :=
  if o.to_audio then
    let l := l ++ ["-x", "--audio-format", o.audio_format]
    let step : Option (List String) :=
      if o.audio_quality ≠ "mid" then
        match dictGet AUDIO_QUALITY o.audio_quality with
        | none => none
        | some q => some (l ++ ["--audio-quality", q])
      else some l
    step.map (fun l => if o.keep_video then l ++ ["-k"] else l)
  else some l

/-- `_set_other_options`. -/
def set_other_options (o : Options) (l : List String) : List String :=
  if o.cmd_args ≠ "" then l ++ pySplit o.cmd_args else l

/-- `OptionsParser.parse` (lines 66-78): run the ten `_set_*_options`
methods in their fixed order against the shared `options_list`, starting
from the empty list of a fresh parser. -/
def parse (fp : String → String) (isd : String → Bool) (o : Options) :
    Option (List String) :=
  let l := set_progress_options []
  let l := set_output_options fp o l
  let l := set_auth_options o l
  let l := set_connection_options o l
  (set_video_options isd o l).bind (fun l =>
    let l := set_playlist_options o l
    let l := set_filesystem_options o l
    (set_subtitles_options o l).bind (fun l =>
      (set_audio_options o l).map (fun l =>
        set_other_options o l)))

/-! ## The specification's emission rules (section 4.1, steps 1-10)

Second definitions written from the spec's words, one list segment per
step, to be compared with the threaded source embedding above: each
segment exhibits every conditionally-emitted flag guarded exactly by its
stated condition. -/

def rule_progress : List String := ["--newline"]

def rule_output (fp : String → String) (o : Options) : List String :=
  ["-o"] ++
  (if o.output_format = "id" then [fp o.save_path ++ "%(id)s.%(ext)s"]
   else if o.output_format = "title" then [fp o.save_path ++ "%(title)s.%(ext)s"]
   else if o.output_format = "custom" then [fp o.save_path ++ o.output_template]
   else []) ++
  (if o.restrict_filenames then ["--restrict-filenames"] else [])

def rule_auth (o : Options) : List String :=
  (if o.username ≠ "" then ["-u", o.username] else []) ++
  (if o.password ≠ "" then ["-p", o.password] else []) ++
  (if o.video_password ≠ "" then ["--video-password", o.video_password] else [])

def rule_connection (o : Options) : List String :=
  (if o.retries ≠ 10 then ["-R", toString o.retries] else []) ++
  (if o.proxy ≠ "" then ["--proxy", o.proxy] else []) ++
  (if o.user_agent ≠ "" then ["--user-agent", o.user_agent] else []) ++
  (if o.referer ≠ "" then ["--referer", o.referer] else [])

def rule_video (isd : String → Bool) (o : Options) : List String :=
  if o.video_format = "default" then [] else
    ["-f", if isd o.video_format && isd o.dash_audio_format then
        (dictGet VIDEO_FORMATS o.video_format).getD "" ++ "+" ++
          (dictGet DASH_AUDIO_FORMATS o.dash_audio_format).getD ""
      else (dictGet VIDEO_FORMATS o.video_format).getD ""]

def rule_playlist (o : Options) : List String :=
  (if o.playlist_start ≠ 1 then ["--playlist-start", toString o.playlist_start] else []) ++
  (if o.playlist_end ≠ 0 then ["--playlist-end", toString o.playlist_end] else []) ++
  (if o.max_downloads ≠ 0 then ["--max-downloads", toString o.max_downloads] else [])

def rule_filesystem (o : Options) : List String :=
  (if o.ignore_errors then ["-i"] else []) ++
  (if o.write_description then ["--write-description"] else []) ++
  (if o.write_info then ["--write-info-json"] else []) ++
  (if o.write_thumbnail then ["--write-thumbnail"] else []) ++
  (if o.min_filesize ≠ "0" then ["--min-filesize", o.min_filesize] else []) ++
  (if o.max_filesize ≠ "0" then ["--max-filesize", o.max_filesize] else [])

def rule_subtitles (o : Options) : List String :=
  (if o.write_all_subs then ["--all-subs"] else []) ++
  (if o.write_auto_subs then ["--write-auto-sub"] else []) ++
  (if o.write_subs then
     ["--write-sub", "--sub-lang", (dictGet SUBS_LANG o.subs_lang).getD ""]
   else []) ++
  (if o.embed_subs then ["--embed-subs"] else [])

def rule_audio (o : Options) : List String :=
  if o.to_audio then
    ["-x", "--audio-format", o.audio_format] ++
    (if o.audio_quality ≠ "mid" then
       ["--audio-quality", (dictGet AUDIO_QUALITY o.audio_quality).getD ""]
     else []) ++
    (if o.keep_video then ["-k"] else [])
  else []

def rule_other (o : Options) : List String :=
  if o.cmd_args ≠ "" then pySplit o.cmd_args else []

/-! ## Trace predicates used by the theorems -/

/-- A run event that cannot overwrite an already-forced `STOPPED` return
code: a stdout line that does not classify to `Already Downloaded` (or
whose classification raises, aborting the run), or an empty stderr read,
or another `stop()` call. -/
def preservesStop : RunEvent → Bool
  | RunEvent.out line =>
      match extract_data line with
      | none => true
      | some ev => ev.status != some "Already Downloaded"
  | RunEvent.err msg => msg == ""
  | RunEvent.stop => true

/-- A trace made only of stdout-line iterations. -/
def outs (ls : List String) : List RunEvent :=
  ls.map RunEvent.out

/-- A concrete configuration with every optional value at its sentinel,
used to instantiate the universally quantified theorems. -/
def sampleOptions : Options :=
  { save_path := "/d/", output_format := "title", output_template := "",
    restrict_filenames := false, username := "", password := "",
    video_password := "", retries := 10, proxy := "", user_agent := "",
    referer := "", video_format := "default", dash_audio_format := "none",
    playlist_start := 1, playlist_end := 0, max_downloads := 0,
    ignore_errors := false, write_description := false, write_info := false,
    write_thumbnail := false, min_filesize := "0", max_filesize := "0",
    write_all_subs := false, write_auto_subs := false, write_subs := false,
    embed_subs := false, subs_lang := "English", to_audio := false,
    audio_format := "mp3", audio_quality := "mid", keep_video := false,
    cmd_args := "" }

/-! # Theorems -/

theorem set_progress_eq (l : List String) :
    set_progress_options l = l ++ rule_progress := rfl

theorem set_output_eq (fp : String → String) (o : Options) (l : List String) :
    set_output_options fp o l = l ++ rule_output fp o := by
  simp only [set_output_options, rule_output]
  split_ifs <;> simp

theorem set_auth_eq (o : Options) (l : List String) :
    set_auth_options o l = l ++ rule_auth o := by
  simp only [set_auth_options, rule_auth]
  split_ifs <;> simp

theorem set_connection_eq (o : Options) (l : List String) :
    set_connection_options o l = l ++ rule_connection o := by
  simp only [set_connection_options, rule_connection]
  split_ifs <;> simp

theorem set_video_eq (isd : String → Bool) (o : Options)
    (hv : o.video_format ≠ "default" →
      (dictGet VIDEO_FORMATS o.video_format).isSome = true)
    (hd : o.video_format ≠ "default" → isd o.video_format = true →
      isd o.dash_audio_format = true →
      (dictGet DASH_AUDIO_FORMATS o.dash_audio_format).isSome = true)
    (l : List String) :
    set_video_options isd o l = some (l ++ rule_video isd o) := by
  by_cases h : o.video_format = "default"
  · simp [set_video_options, rule_video, h]
  · obtain ⟨vcode, hvc⟩ := Option.isSome_iff_exists.mp (hv h)
    by_cases h1 : isd o.video_format = true
    · by_cases h2 : isd o.dash_audio_format = true
      · obtain ⟨dcode, hdc⟩ := Option.isSome_iff_exists.mp (hd h h1 h2)
        simp [set_video_options, rule_video, h, h1, h2, hvc, hdc]
      · simp [set_video_options, rule_video, h, h1,
          Bool.not_eq_true _ ▸ h2, hvc]
    · simp [set_video_options, rule_video, h, h1, hvc]

theorem set_playlist_eq (o : Options) (l : List String) :
    set_playlist_options o l = l ++ rule_playlist o := by
  simp only [set_playlist_options, rule_playlist]
  split_ifs <;> simp

theorem set_filesystem_eq (o : Options) (l : List String) :
    set_filesystem_options o l = l ++ rule_filesystem o := by
  simp only [set_filesystem_options, rule_filesystem]
  split_ifs <;> simp

theorem set_subtitles_eq (o : Options)
    (hs : o.write_subs = true → (dictGet SUBS_LANG o.subs_lang).isSome = true)
    (l : List String) :
    set_subtitles_options o l = some (l ++ rule_subtitles o) := by
  by_cases h3 : o.write_subs = true
  · obtain ⟨code, hc⟩ := Option.isSome_iff_exists.mp (hs h3)
    by_cases h1 : o.write_all_subs = true <;> by_cases h2 : o.write_auto_subs = true <;>
      by_cases h4 : o.embed_subs = true <;>
      simp [set_subtitles_options, rule_subtitles, h1, h2, h3, h4, hc]
  · by_cases h1 : o.write_all_subs = true <;> by_cases h2 : o.write_auto_subs = true <;>
      by_cases h4 : o.embed_subs = true <;>
      simp [set_subtitles_options, rule_subtitles, h1, h2, h3, h4]

theorem set_audio_eq (o : Options)
    (ha : o.to_audio = true → o.audio_quality ≠ "mid" →
      (dictGet AUDIO_QUALITY o.audio_quality).isSome = true)
    (l : List String) :
    set_audio_options o l = some (l ++ rule_audio o) := by
  by_cases h : o.to_audio = true
  · by_cases hq : o.audio_quality = "mid"
    · by_cases hk : o.keep_video = true <;>
        simp [set_audio_options, rule_audio, h, hq, hk]
    · obtain ⟨q, hqc⟩ := Option.isSome_iff_exists.mp (ha h hq)
      by_cases hk : o.keep_video = true <;>
        simp [set_audio_options, rule_audio, h, hq, hqc, hk]
  · simp [set_audio_options, rule_audio, h]

theorem set_other_eq (o : Options) (l : List String) :
    set_other_options o l = l ++ rule_other o := by
  simp only [set_other_options, rule_other]
  split_ifs <;> simp

/-- C2: for every configuration (and every choice of the `utils` helpers
`fix_path` and `is_dash`) on which the table lookups the code performs do
not raise, `OptionsParser.parse` returns exactly the concatenation, in the
fixed order of spec section 4.1 steps 1-10, of the ten emission-rule
segments, each of which emits its conditionally-guarded flags if and only
if the stated guard holds (auth flags for non-empty username, password and
video password; `-R` for retries other than 10; playlist start, end and
max for values other than 1, 0, 0; `-f` for a format other than
`default`; min and max filesize for values other than `"0"`;
`--audio-quality` for a quality other than `mid` under extract-audio). -/
theorem C2_parse_guards_and_order (fp : String → String) (isd : String → Bool)
    (o : Options)
    (hv : o.video_format ≠ "default" →
      (dictGet VIDEO_FORMATS o.video_format).isSome = true)
    (hd : o.video_format ≠ "default" → isd o.video_format = true →
      isd o.dash_audio_format = true →
      (dictGet DASH_AUDIO_FORMATS o.dash_audio_format).isSome = true)
    (hs : o.write_subs = true → (dictGet SUBS_LANG o.subs_lang).isSome = true)
    (ha : o.to_audio = true → o.audio_quality ≠ "mid" →
      (dictGet AUDIO_QUALITY o.audio_quality).isSome = true) :
    parse fp isd o = some (rule_progress ++ rule_output fp o ++ rule_auth o ++
      rule_connection o ++ rule_video isd o ++ rule_playlist o ++
      rule_filesystem o ++ rule_subtitles o ++ rule_audio o ++ rule_other o) := by
  simp only [parse, set_progress_eq, set_output_eq, set_auth_eq, set_connection_eq,
    set_video_eq isd o hv hd, Option.some_bind, set_playlist_eq, set_filesystem_eq,
    set_subtitles_eq o hs, set_audio_eq o ha, Option.map_some', set_other_eq,
    List.nil_append, List.append_assoc]

/-- Witness for C2: on the all-sentinel configuration the builder emits
exactly the progress flag and the output flag with its template. -/
theorem C2_witness :
    parse id (fun _ => false) sampleOptions =
      some ["--newline", "-o", "/d/%(title)s.%(ext)s"] := by
  have h := C2_parse_guards_and_order id (fun _ => false) sampleOptions
    (by decide) (by decide) (by decide) (by decide)
  rw [h]
  rfl

theorem update_data_return_code (st : DLState) (ev : Event) :
    (update_data st ev).1.return_code =
      if ev.status = some "Already Downloaded" then ALREADY else st.return_code := rfl

theorem update_data_updated (st : DLState) (ev : Event) :
    (update_data st ev).2 = eventNonempty ev := rfl

theorem runEvents_cons (st : DLState) (e : RunEvent) (es : List RunEvent) :
    runEvents st (e :: es) = (stepEvent st e).bind (fun st1 => runEvents st1 es) := rfl

theorem runEvents_append (l1 l2 : List RunEvent) : ∀ st : DLState,
    runEvents st (l1 ++ l2) = (runEvents st l1).bind (fun s => runEvents s l2) := by
  induction l1 with
  | nil => intro st; simp [runEvents]
  | cons e es ih =>
      intro st
      simp only [List.cons_append, runEvents_cons]
      cases stepEvent st e <;> simp [ih]

theorem run_keeps_stopped : ∀ (evs : List RunEvent) (st stF : DLState),
    st.return_code = STOPPED → (∀ e ∈ evs, preservesStop e = true) →
    runEvents st evs = some stF → stF.return_code = STOPPED := by
  intro evs
  induction evs with
  | nil =>
      intro st stF h _ hrun
      cases hrun
      exact h
  | cons e es ih =>
      intro st stF h hall hrun
      rw [runEvents_cons] at hrun
      cases hstep : stepEvent st e with
      | none => rw [hstep] at hrun; simp at hrun
      | some st1 =>
          rw [hstep] at hrun
          simp only [Option.some_bind] at hrun
          have hpres := hall e (List.mem_cons_self e es)
          have h1 : st1.return_code = STOPPED := by
            cases e with
            | out line =>
                simp only [stepEvent] at hstep
                cases hx : extract_data line with
                | none => rw [hx] at hstep; simp at hstep
                | some ev =>
                    rw [hx] at hstep
                    simp only [Option.map_some'] at hstep
                    injection hstep with h2
                    rw [← h2, update_data_return_code, if_neg, h]
                    simp only [preservesStop, hx, bne_iff_ne, ne_eq] at hpres
                    exact hpres
            | err msg =>
                simp only [preservesStop, beq_iff_eq] at hpres
                subst hpres
                simp only [stepEvent, ne_eq, not_true_eq_false, if_neg,
                  ite_false] at hstep
                injection hstep with h2
                rw [← h2, update_data_return_code]
                simpa using h
            | stop =>
                simp only [stepEvent] at hstep
                injection hstep with h2
                rw [← h2]
          exact ih st1 stF h1 (fun x hx => hall x (List.mem_cons_of_mem _ hx)) hrun

/-- C3 amended: a `stop()` call during an active run forces the pending
result to STOPPED, and the call returns STOPPED provided no event observed
after the stop request overrides it -- that is, no nonempty stderr read
and no line classified `Already Downloaded` between the stop and process
exit.  (The claim's stronger form, "regardless of any stderr or status
output observed between the stop request and process exit", is refuted by
`C3_counterexample`.) -/
theorem C3_stop_amended (st stF : DLState) (l1 l2 : List RunEvent)
    (h2 : ∀ e ∈ l2, preservesStop e = true)
    (hrun : download st (l1 ++ RunEvent.stop :: l2) = some stF) :
    stF.return_code = STOPPED := by
  unfold download at hrun
  rw [runEvents_append] at hrun
  cases hA : runEvents (download_start st) l1 with
  | none => rw [hA] at hrun; simp at hrun
  | some stA =>
      rw [hA] at hrun
      simp only [Option.some_bind, runEvents_cons, stepEvent] at hrun
      exact run_keeps_stopped l2 { stA with return_code := STOPPED } stF rfl h2 hrun

/-- Counterexample to C3 as stated: a stderr line read between the stop
request and process exit overwrites the STOPPED code with ERROR, so the
`download()` call does not return STOPPED. -/
theorem C3_counterexample :
    (download initState [RunEvent.stop, RunEvent.err "boom"]).map
        (fun s => s.return_code) = some ERROR ∧ ERROR ≠ STOPPED := by
  constructor
  · rfl
  · decide

/-- Witness for C3 amended: a stop request followed only by ordinary
progress lines yields STOPPED. -/
theorem C3_witness :
    (download initState [RunEvent.out "[download]  42.0% of 10.00MiB at 1.20MiB/s ETA 00:10",
        RunEvent.stop, RunEvent.out "[download] 100% of 10.00MiB"]).map
        (fun s => s.return_code) = some STOPPED := by
  have h := C3_stop_amended initState
    (((download initState [RunEvent.out "[download]  42.0% of 10.00MiB at 1.20MiB/s ETA 00:10",
        RunEvent.stop, RunEvent.out "[download] 100% of 10.00MiB"]).getD initState))
    [RunEvent.out "[download]  42.0% of 10.00MiB at 1.20MiB/s ETA 00:10"]
    [RunEvent.out "[download] 100% of 10.00MiB"]
    (by decide) (by rfl)
  rw [show (download initState [RunEvent.out "[download]  42.0% of 10.00MiB at 1.20MiB/s ETA 00:10",
        RunEvent.stop, RunEvent.out "[download] 100% of 10.00MiB"]) =
      some ((download initState [RunEvent.out "[download]  42.0% of 10.00MiB at 1.20MiB/s ETA 00:10",
        RunEvent.stop, RunEvent.out "[download] 100% of 10.00MiB"]).getD initState) from rfl]
  rw [Option.map_some', h]

theorem update_data_status (st : DLState) (ev : Event) :
    (update_data st ev).1.data.status =
      match ev.status with
      | none => st.data.status
      | some v => if v = "Already Downloaded" then none else some v := rfl

theorem extract_last_downloaded (rest : List String) (ev : Event)
    (hx : extractTokens ("[download]" :: rest) = some ev)
    (hl : rest.getLast? = some "downloaded") :
    ev.status = some "Already Downloaded" := by
  cases rest with
  | nil => simp at hl
  | cons t0 rs =>
      simp only [extractTokens, List.head?, eq_self_iff_true, if_true] at hx
      cases hp : getProgress (t0 :: rs) t0 (getFilename (t0 :: rs) t0 { status := some "Downloading" }) with
      | none => rw [hp] at hx; simp at hx
      | some e2 =>
          rw [hp] at hx
          simp only [Option.some_bind] at hx
          cases hq : getPlaylist (t0 :: rs) t0 e2 with
          | none => rw [hq] at hx; simp at hx
          | some e3 =>
              rw [hq] at hx
              simp only [Option.some_bind, getAlready, hl] at hx
              simp only [eq_self_iff_true, if_true, Option.some_inj] at hx
              rw [← hx]

theorem run_keeps_already : ∀ (ls : List String) (st stF : DLState),
    st.return_code = ALREADY → runEvents st (outs ls) = some stF →
    stF.return_code = ALREADY := by
  intro ls
  induction ls with
  | nil => intro st stF h hrun; cases hrun; exact h
  | cons line rest ih =>
      intro st stF h hrun
      simp only [outs, List.map_cons, runEvents_cons, stepEvent] at hrun
      cases hx : extract_data line with
      | none => rw [hx] at hrun; simp at hrun
      | some ev =>
          rw [hx] at hrun
          simp only [Option.map_some', Option.some_bind] at hrun
          refine ih _ stF ?_ hrun
          rw [update_data_return_code]
          split
          · rfl
          · exact h

/-- C4: when a classified event carries the `Already Downloaded` status,
`_update_data` sets the pending return code to `ALREADY` and stores `None`
for the status (the transient signal is suppressed from the merged state);
consequently a run of stdout lines containing a `[download]` line whose
last token is the `downloaded` marker returns `ALREADY`, whatever
`Downloading` statuses earlier (or later) lines of the run set. -/
theorem C4_already_result (st stF : DLState) (ls1 ls2 : List String)
    (line : String) (rest : List String)
    (htok : tokenize line = "[download]" :: rest)
    (hlast : rest.getLast? = some "downloaded")
    (hrun : download st (outs ls1 ++ RunEvent.out line :: outs ls2) = some stF) :
    stF.return_code = ALREADY ∧
      ∀ (st2 : DLState) (ev : Event), ev.status = some "Already Downloaded" →
        (update_data st2 ev).1.return_code = ALREADY ∧
        (update_data st2 ev).1.data.status = none := by
  constructor
  · unfold download at hrun
    rw [runEvents_append] at hrun
    cases hA : runEvents (download_start st) (outs ls1) with
    | none => rw [hA] at hrun; simp at hrun
    | some stA =>
        rw [hA] at hrun
        simp only [Option.some_bind, runEvents_cons, stepEvent] at hrun
        cases hx : extract_data line with
        | none => rw [hx] at hrun; simp at hrun
        | some ev =>
            rw [hx] at hrun
            simp only [Option.map_some', Option.some_bind] at hrun
            have hAD : ev.status = some "Already Downloaded" := by
              apply extract_last_downloaded rest ev _ hlast
              rw [← htok]
              exact hx
            refine run_keeps_already ls2 _ stF ?_ hrun
            rw [update_data_return_code, if_pos hAD]
  · intro st2 ev hAD
    constructor
    · rw [update_data_return_code, if_pos hAD]
    · rw [update_data_status, hAD]
      simp

/-- Witness for C4: a run where a progress line is followed by an
already-downloaded line and a further progress line returns `ALREADY`. -/
theorem C4_witness :
    (download initState
        (outs ["[download]  42.0% of 10.00MiB at 1.20MiB/s ETA 00:10"] ++
          RunEvent.out "[download] /tmp/movie.mp4 has already been downloaded" ::
          outs ["[download] 100% of 10.00MiB"])).map (fun s => s.return_code) =
      some ALREADY := by
  have h := C4_already_result initState
    ((download initState
        (outs ["[download]  42.0% of 10.00MiB at 1.20MiB/s ETA 00:10"] ++
          RunEvent.out "[download] /tmp/movie.mp4 has already been downloaded" ::
          outs ["[download] 100% of 10.00MiB"])).getD initState)
    ["[download]  42.0% of 10.00MiB at 1.20MiB/s ETA 00:10"]
    ["[download] 100% of 10.00MiB"]
    "[download] /tmp/movie.mp4 has already been downloaded"
    ["/tmp/movie.mp4", "has", "already", "been", "downloaded"]
    (by rfl) (by rfl) (by rfl)
  rw [show (download initState
        (outs ["[download]  42.0% of 10.00MiB at 1.20MiB/s ETA 00:10"] ++
          RunEvent.out "[download] /tmp/movie.mp4 has already been downloaded" ::
          outs ["[download] 100% of 10.00MiB"])) =
      some ((download initState
        (outs ["[download]  42.0% of 10.00MiB at 1.20MiB/s ETA 00:10"] ++
          RunEvent.out "[download] /tmp/movie.mp4 has already been downloaded" ::
          outs ["[download] 100% of 10.00MiB"])).getD initState) from rfl]
  rw [Option.map_some', h.1]

/-- C5 amended: a new `download()` call resets only the pending return
code to `OK`; the merged progress state and the files list left over from
previous invocations on the same instance are kept, not reset (the claim
that every invocation starts with a fresh, empty ProgressState is refuted
by `C5_counterexample`). -/
theorem C5_state_reuse (st : DLState) :
    download st [] =
      some { return_code := OK, data := st.data, files_list := st.files_list } := rfl

/-- Counterexample to C5 as stated: after a first invocation that saw a
`Destination:` line, the state at the start of the next `download()` call
still carries the filename field, which the claim requires to be unset. -/
theorem C5_counterexample :
    (download initState [RunEvent.out "[download] Destination: /tmp/movie.mp4"]).map
        (fun s => (download_start s).data.filename) = some (some "movie.mp4") ∧
      (some "movie.mp4" : Option String) ≠ none := by
  constructor
  · rfl
  · decide

/-- C6: the merge is monotonic per field -- every field absent from the
event leaves the corresponding accumulated field untouched. -/
theorem C6_merge_monotonic (st : DLState) (ev : Event) :
    (ev.playlist_index = none →
      (update_data st ev).1.data.playlist_index = st.data.playlist_index) ∧
    (ev.playlist_size = none →
      (update_data st ev).1.data.playlist_size = st.data.playlist_size) ∧
    (ev.filesize = none → (update_data st ev).1.data.filesize = st.data.filesize) ∧
    (ev.filename = none → (update_data st ev).1.data.filename = st.data.filename) ∧
    (ev.percent = none → (update_data st ev).1.data.percent = st.data.percent) ∧
    (ev.status = none → (update_data st ev).1.data.status = st.data.status) ∧
    (ev.speed = none → (update_data st ev).1.data.speed = st.data.speed) ∧
    (ev.eta = none → (update_data st ev).1.data.eta = st.data.eta) := by
  refine ⟨?_, ?_, ?_, ?_, ?_, ?_, ?_, ?_⟩ <;> intro h <;> simp [update_data, h]

/-- Witness for C6: the empty event leaves the status field of the initial
state unchanged. -/
theorem C6_witness :
    (update_data initState {}).1.data.status = initState.data.status :=
  (C6_merge_monotonic initState {}).2.2.2.2.2.1 rfl

theorem getLast?_cons_isSome (x : String) (xs : List String) :
    ∃ y, (x :: xs).getLast? = some y := by
  induction xs generalizing x with
  | nil => exact ⟨x, rfl⟩
  | cons z zs ih =>
      obtain ⟨y, hy⟩ := ih z
      exact ⟨y, by rw [List.getLast?_cons_cons, hy]⟩

theorem getAlready_cons_isSome (x : String) (xs : List String) (e : Event) :
    (getAlready (x :: xs) e).isSome = true := by
  obtain ⟨y, hy⟩ := getLast?_cons_isSome x xs
  simp only [getAlready, hy]
  rfl

theorem getProgress_long (a b c d e f g : String) (tail : List String)
    (t0 : String) (ev : Event) :
    (getProgress (a :: b :: c :: d :: e :: f :: g :: tail) t0 ev).isSome = true := by
  show (if t0.data.contains '%' = true then
      if t0 = "100%" then some { ev with speed := some "", eta := some "" }
      else some { ev with percent := some t0, filesize := some c,
                          speed := some e, eta := some g }
    else some ev).isSome = true
  split
  · split <;> rfl
  · rfl

theorem getPlaylist_long (a b c d e f g : String) (tail : List String)
    (t0 : String) (ev : Event) :
    (getPlaylist (a :: b :: c :: d :: e :: f :: g :: tail) t0 ev).isSome = true := by
  show (if t0 = "Downloading" then
      if b = "video" then
        some { ev with playlist_index := some c, playlist_size := some e }
      else some ev
    else some ev).isSome = true
  split
  · split <;> rfl
  · rfl

theorem extractTokens_long (a b c d e f g : String) (tail : List String) :
    (extractTokens ("[download]" :: a :: b :: c :: d :: e :: f :: g :: tail)).isSome = true := by
  simp only [extractTokens, List.head?, eq_self_iff_true, if_true]
  obtain ⟨e2, hp⟩ := Option.isSome_iff_exists.mp
    (getProgress_long a b c d e f g tail a
      (getFilename (a :: b :: c :: d :: e :: f :: g :: tail) a { status := some "Downloading" }))
  rw [hp, Option.some_bind]
  obtain ⟨e3, hq⟩ := Option.isSome_iff_exists.mp (getPlaylist_long a b c d e f g tail a e2)
  rw [hq, Option.some_bind]
  exact getAlready_cons_isSome a (b :: c :: d :: e :: f :: g :: tail) e3

theorem exists_cons7 (l : List String) (h : 7 ≤ l.length) :
    ∃ a b c d e f g tail, l = a :: b :: c :: d :: e :: f :: g :: tail := by
  match l with
  | a :: b :: c :: d :: e :: f :: g :: tail => exact ⟨a, b, c, d, e, f, g, tail, rfl⟩
  | [] | [_] | [_, _] | [_, _, _] | [_, _, _, _] | [_, _, _, _, _] | [_, _, _, _, _, _] =>
      simp at h

/-- C1 amended: classification is total on every line whose header token is
not `[download]`, and on every `[download]` line with at least seven
post-header tokens; on a `[download]` line missing an expected token at
one of the fixed positions the classification raises `IndexError` instead
of skipping the sub-extraction (see `C1_counterexample`). -/
theorem C1_classify_amended (s : String)
    (h : (tokenize s).head? ≠ some "[download]" ∨ 8 ≤ (tokenize s).length) :
    (extract_data s).isSome = true := by
  unfold extract_data
  cases htok : tokenize s with
  | nil => rfl
  | cons hdr rest =>
      by_cases hdl : hdr = "[download]"
      · subst hdl
        rcases h with h1 | h2
        · rw [htok] at h1
          simp at h1
        · rw [htok, List.length_cons] at h2
          obtain ⟨a, b, c, d, e, f, g, tail, rfl⟩ := exists_cons7 rest (by omega)
          exact extractTokens_long a b c d e f g tail
      · simp only [extractTokens]
        rw [if_neg hdl]
        split <;> rfl

/-- Counterexample to C1 as stated: the line consisting only of the
`[download]` header -- named by the claim as tolerated -- raises
`IndexError` at the first fixed-position access instead of returning a
partial event. -/
theorem C1_counterexample : extract_data "[download]" = none := rfl

/-- Witness for C1 amended: an `[ffmpeg]` line classifies without raising. -/
theorem C1_witness : (extract_data "[ffmpeg] Merging formats into file").isSome = true :=
  C1_classify_amended "[ffmpeg] Merging formats into file" (Or.inl (by decide))

/-- C7: on a `[download]` progress line whose first post-header token
contains a percent sign, the exact-`100%` case sets speed and eta to the
empty string and leaves percent unset, and otherwise percent, filesize,
speed and eta come from post-header token positions 0, 2, 4 and 6; the
spec's two concrete example lines classify accordingly. -/
theorem C7_progress_positions :
    (extract_data "[download]  42.0% of 10.00MiB at 1.20MiB/s ETA 00:10" =
      some { filesize := some "10.00MiB", percent := some "42.0%",
             status := some "Downloading", speed := some "1.20MiB/s",
             eta := some "00:10" }) ∧
    (extract_data "[download] 100% of 10.00MiB" =
      some { status := some "Downloading", speed := some "", eta := some "" }) ∧
    (∀ rest : List String,
      (extractTokens ("[download]" :: "100%" :: rest)).map
          (fun e => (e.percent, e.speed, e.eta)) = some (none, some "", some "")) ∧
    (∀ (t0 t1 t2 t3 t4 t5 t6 : String) (tail : List String),
      t0.data.contains '%' = true → t0 ≠ "100%" →
      (extractTokens ("[download]" :: t0 :: t1 :: t2 :: t3 :: t4 :: t5 :: t6 :: tail)).map
          (fun e => (e.percent, e.filesize, e.speed, e.eta)) =
        some (some t0, some t2, some t4, some t6)) := by
  refine ⟨rfl, rfl, ?_, ?_⟩
  · intro rest
    obtain ⟨y, hy⟩ := getLast?_cons_isSome "100%" rest
    simp only [extractTokens, List.head?, eq_self_iff_true, if_true]
    rw [show getProgress ("100%" :: rest) "100%"
          (getFilename ("100%" :: rest) "100%" { status := some "Downloading" }) =
        some { status := some "Downloading", speed := some "", eta := some "" } from rfl]
    rw [Option.some_bind]
    rw [show getPlaylist ("100%" :: rest) "100%"
          ({ status := some "Downloading", speed := some "", eta := some "" } : Event) =
        some { status := some "Downloading", speed := some "", eta := some "" } from rfl]
    rw [Option.some_bind]
    simp only [getAlready, hy, Option.map_some']
    split <;> rfl
  · intro t0 t1 t2 t3 t4 t5 t6 tail hc h100
    have hnd : t0 ≠ "Destination:" := by
      intro he
      rw [he] at hc
      simp at hc
    have hnl : t0 ≠ "Downloading" := by
      intro he
      rw [he] at hc
      simp at hc
    obtain ⟨y, hy⟩ := getLast?_cons_isSome t0 (t1 :: t2 :: t3 :: t4 :: t5 :: t6 :: tail)
    have hf : getFilename (t0 :: t1 :: t2 :: t3 :: t4 :: t5 :: t6 :: tail) t0
        ({ status := some "Downloading" } : Event) = { status := some "Downloading" } := by
      unfold getFilename
      rw [if_neg hnd]
    have hp : getProgress (t0 :: t1 :: t2 :: t3 :: t4 :: t5 :: t6 :: tail) t0
        ({ status := some "Downloading" } : Event) =
        some { status := some "Downloading", percent := some t0, filesize := some t2,
               speed := some t4, eta := some t6 } := by
      unfold getProgress
      rw [if_pos hc, if_neg h100]
      rfl
    have hq : getPlaylist (t0 :: t1 :: t2 :: t3 :: t4 :: t5 :: t6 :: tail) t0
        ({ status := some "Downloading", percent := some t0, filesize := some t2,
           speed := some t4, eta := some t6 } : Event) =
        some { status := some "Downloading", percent := some t0, filesize := some t2,
               speed := some t4, eta := some t6 } := by
      unfold getPlaylist
      rw [if_neg hnl]
    simp only [extractTokens, List.head?, eq_self_iff_true, if_true]
    rw [hf, hp, Option.some_bind, hq, Option.some_bind]
    simp only [getAlready, hy, Option.map_some']
    split <;> rfl

/-- Witness for C7: the general fixed-position rule applied to the spec's
example tokens. -/
theorem C7_witness :
    (extractTokens ["[download]", "42.0%", "of", "10.00MiB", "at", "1.20MiB/s",
        "ETA", "00:10"]).map (fun e => (e.percent, e.filesize, e.speed, e.eta)) =
      some (some "42.0%", some "10.00MiB", some "1.20MiB/s", some "00:10") :=
  C7_progress_positions.2.2.2 "42.0%" "of" "10.00MiB" "at" "1.20MiB/s" "ETA" "00:10" []
    (by decide) (by decide)

theorem splitAux_spaces : ∀ cs : List Char, (∀ c ∈ cs, c = ' ') →
    splitAux (fun c => c = ' ') cs [] = [] := by
  intro cs
  induction cs with
  | nil => intro _; rfl
  | cons c cs ih =>
      intro h
      have hc : c = ' ' := h c (List.mem_cons_self c cs)
      simp only [splitAux]
      rw [if_pos (by simp [hc]),
        if_pos (show ([] : List Char).isEmpty = true from rfl)]
      exact ih (fun x hx => h x (List.mem_cons_of_mem c hx))

/-- C8 amended: classification of an empty line or of a line consisting
only of space characters returns the empty event; tokenization splits on
the space character only, so a line made of other whitespace (e.g. a tab)
is not empty-tokenized and classifies as `Pre Processing` instead (see
`C8_counterexample`). -/
theorem C8_empty_amended (s : String) (h : ∀ c ∈ s.data, c = ' ') :
    extract_data s = some {} := by
  unfold extract_data tokenize
  rw [splitAux_spaces s.data h]
  rfl

/-- Counterexample to C8 as stated: the all-whitespace line `"\t"` does
not classify to the empty event -- the tab survives `split(' ')` and
becomes an unrecognized header. -/
theorem C8_counterexample :
    ("\t".data.all (fun c => c.isWhitespace) = true) ∧
      extract_data "\t" ≠ some ({} : Event) := by
  constructor
  · decide
  · decide

/-- Witness for C8 amended: a line of three spaces yields the empty
event. -/
theorem C8_witness : extract_data "   " = some ({} : Event) :=
  C8_empty_amended "   " (by decide)

/-- C9 amended: for every batch in which no deletion fails, `clear_dash`
never raises -- in particular it silently skips every non-existent path --
and afterwards exactly the recorded files are gone from the filesystem;
but a deletion failure on one file propagates and aborts the remaining
deletions (see `C9_counterexample`). -/
theorem C9_clear_dash_amended : ∀ (files : List String) (fs : FS),
    fs.existing.Nodup → (∀ f ∈ files, f ∉ fs.locked) →
    ∃ fsF, clear_dash files fs = some fsF ∧ fsF.locked = fs.locked ∧
      fsF.existing.Nodup ∧
      ∀ p, p ∈ fsF.existing ↔ (p ∈ fs.existing ∧ p ∉ files) := by
  intro files
  induction files with
  | nil =>
      intro fs hnd _
      exact ⟨fs, rfl, rfl, hnd, by simp⟩
  | cons f rest ih =>
      intro fs hnd hlock
      have hlf : f ∉ fs.locked := hlock f (List.mem_cons_self f rest)
      by_cases hex : f ∈ fs.existing
      · have hrem : os_remove fs f =
            some { existing := fs.existing.erase f, locked := fs.locked } := by
          unfold os_remove
          rw [if_neg hlf, if_pos hex]
        have hpe : path_exists fs f = true := by
          simp [path_exists, hex]
        obtain ⟨fsF, h1, h2, h3, h4⟩ :=
          ih { existing := fs.existing.erase f, locked := fs.locked }
            (hnd.erase f) (fun x hx => hlock x (List.mem_cons_of_mem f hx))
        refine ⟨fsF, ?_, h2, h3, ?_⟩
        · unfold clear_dash
          rw [if_pos hpe, hrem, Option.some_bind]
          exact h1
        · intro p
          rw [h4 p]
          constructor
          · rintro ⟨hpe2, hpr⟩
            have := (hnd.mem_erase_iff).mp hpe2
            exact ⟨this.2, by
              intro hmem
              rcases List.mem_cons.mp hmem with h | h
              · exact this.1 h
              · exact hpr h⟩
          · rintro ⟨hpe2, hpr⟩
            refine ⟨(hnd.mem_erase_iff).mpr ⟨?_, hpe2⟩, ?_⟩
            · intro he
              exact hpr (he ▸ List.mem_cons_self f rest)
            · intro hr
              exact hpr (List.mem_cons_of_mem f hr)
      · have hpe : ¬ path_exists fs f = true := by
          simp [path_exists, hex]
        obtain ⟨fsF, h1, h2, h3, h4⟩ :=
          ih fs hnd (fun x hx => hlock x (List.mem_cons_of_mem f hx))
        refine ⟨fsF, ?_, h2, h3, ?_⟩
        · unfold clear_dash
          rw [if_neg hpe]
          exact h1
        · intro p
          rw [h4 p]
          constructor
          · rintro ⟨hpe2, hpr⟩
            exact ⟨hpe2, by
              intro hmem
              rcases List.mem_cons.mp hmem with h | h
              · exact hex (h ▸ hpe2)
              · exact hpr h⟩
          · rintro ⟨hpe2, hpr⟩
            exact ⟨hpe2, fun hr => hpr (List.mem_cons_of_mem f hr)⟩

/-- Counterexample to C9 as stated: with `"a"` locked (its deletion
raises), the batch aborts -- `clear_dash` propagates the error and never
reaches `"b"`, although `"b"` exists and is deletable. -/
theorem C9_counterexample :
    clear_dash ["a", "b"] { existing := ["a", "b"], locked := ["a"] } = none ∧
      ("b" : String) ∈ (FS.mk ["a", "b"] ["a"]).existing := by
  constructor
  · rfl
  · decide

/-- Witness for C9 amended: deleting `["a", "b"]` on a filesystem holding
`["b", "c"]` succeeds (the missing `"a"` is skipped silently). -/
theorem C9_witness :
    (clear_dash ["a", "b"] { existing := ["b", "c"], locked := [] }).isSome = true := by
  obtain ⟨fsF, h1, -, -, -⟩ := C9_clear_dash_amended ["a", "b"]
    { existing := ["b", "c"], locked := [] } (by decide) (by decide)
  rw [h1]
  rfl

theorem getFilename_status (rest : List String) (t0 : String) (e : Event) :
    (getFilename rest t0 e).status = e.status := by
  unfold getFilename
  split <;> rfl

theorem getProgress_status (rest : List String) (t0 : String) (e e2 : Event)
    (hx : getProgress rest t0 e = some e2) : e2.status = e.status := by
  unfold getProgress at hx
  split at hx
  · split at hx
    · injection hx with h
      subst h
      rfl
    · split at hx
      · injection hx with h
        subst h
        rfl
      · exact Option.noConfusion hx
  · injection hx with h
    subst h
    rfl

theorem getPlaylist_status (rest : List String) (t0 : String) (e e2 : Event)
    (hx : getPlaylist rest t0 e = some e2) : e2.status = e.status := by
  unfold getPlaylist at hx
  split at hx
  · split at hx
    · exact Option.noConfusion hx
    · split at hx
      · split at hx
        · injection hx with h
          subst h
          rfl
        · exact Option.noConfusion hx
      · injection hx with h
        subst h
        rfl
  · injection hx with h
    subst h
    rfl

theorem getAlready_status (rest : List String) (e e2 : Event)
    (hx : getAlready rest e = some e2) :
    e2.status = e.status ∨ e2.status = some "Already Downloaded" := by
  unfold getAlready at hx
  split at hx
  · exact Option.noConfusion hx
  · injection hx with h
    subst h
    split
    · right
      rfl
    · left
      rfl

theorem extract_status_isSome (hdr : String) (rest : List String) (ev : Event)
    (hx : extractTokens (hdr :: rest) = some ev) : ev.status.isSome = true := by
  by_cases hdl : hdr = "[download]"
  · subst hdl
    cases rest with
    | nil =>
        rw [show extractTokens ["[download]"] = none from rfl] at hx
        exact Option.noConfusion hx
    | cons t0 rs =>
        simp only [extractTokens, List.head?, eq_self_iff_true, if_true] at hx
        cases hp : getProgress (t0 :: rs) t0
            (getFilename (t0 :: rs) t0 { status := some "Downloading" }) with
        | none => rw [hp] at hx; exact Option.noConfusion hx
        | some e2 =>
            rw [hp] at hx
            simp only [Option.some_bind] at hx
            cases hq : getPlaylist (t0 :: rs) t0 e2 with
            | none => rw [hq] at hx; exact Option.noConfusion hx
            | some e3 =>
                rw [hq] at hx
                simp only [Option.some_bind] at hx
                have h2 : e2.status = some "Downloading" := by
                  rw [getProgress_status _ _ _ _ hp, getFilename_status]
                have h3 : e3.status = some "Downloading" := by
                  rw [getPlaylist_status _ _ _ _ hq, h2]
                rcases getAlready_status _ _ _ hx with h | h
                · rw [h, h3]
                  rfl
                · rw [h]
                  rfl
  · simp only [extractTokens] at hx
    rw [if_neg hdl] at hx
    split at hx <;> (injection hx with h; rw [← h]; rfl)

/-- C10 amended: every line with at least one token whose classification
does not raise yields an event whose status field is set (any unrecognized
header giving `Pre Processing`), so merging that event reports a change
and the observer hook fires -- but lines on which classification raises
(see `C10_counterexample`) produce no event and no hook call at all. -/
theorem C10_status_hook_amended (line : String) (ev : Event) (st : DLState)
    (hne : tokenize line ≠ [])
    (hx : extract_data line = some ev) :
    ev.status.isSome = true ∧ (update_data st ev).2 = true ∧
      (∀ hdr rest, tokenize line = hdr :: rest → hdr ≠ "[download]" →
        hdr ≠ "[ffmpeg]" → ev.status = some "Pre Processing") := by
  unfold extract_data at hx
  cases htok : tokenize line with
  | nil => exact absurd htok hne
  | cons hdr rest =>
      rw [htok] at hx
      have hst := extract_status_isSome hdr rest ev hx
      refine ⟨hst, ?_, ?_⟩
      · rw [update_data_updated]
        unfold eventNonempty
        rw [hst]
        simp
      · intro hdr2 rest2 htok2 hnd2 hnf2
        injection htok2 with hh hr
        simp only [extractTokens] at hx
        rw [if_neg (fun hcon => hnd2 (hh.symm.trans hcon)),
          if_neg (fun hcon => hnf2 (hh.symm.trans hcon))] at hx
        injection hx with h
        rw [← h]

/-- Counterexample to C10 as stated: a three-token line on which
classification raises, so no event carrying a status is produced and the
observer is not invoked for this non-blank line. -/
theorem C10_counterexample :
    (tokenize "[download] Downloading video").length = 3 ∧
      extract_data "[download] Downloading video" = none := by
  constructor
  · rfl
  · rfl

/-- Witness for C10 amended: an unrecognized line merges as a change. -/
theorem C10_witness :
    (update_data initState ({ status := some "Pre Processing" } : Event)).2 = true :=
  (C10_status_hook_amended "WARNING: something" { status := some "Pre Processing" }
    initState (by decide) rfl).2.1

end YDL
